import Mathlib

/-!
Verification development for the WhisperCapRover streaming-transcription
server (`src/server.py`).

The Python program is shallowly embedded as pure Lean functions:

* `WhisperCapRoverTranscriber` — the transcriber state (`__init__`): the
  bounded audio deque, the processing flag, the FIFO result queue and the
  dedup string `last_transcription`.
* `add_audio`, `get_results`, `stop` — the transcriber methods; fallible
  steps (NumPy `frombuffer` on an odd byte count raises) return `Option`.
* `decodeIteration` / `decodeLoop` — one pass, resp. a finite run, of the
  body of `_process_with_whisperlive`; the external WhisperLive engine is a
  parameter mapping an audio window to `Except Unit (Option EngineResult)`
  (`.error` models the `transcribe` call raising, `.ok none` a falsy result).
* `WhisperCapRoverServer` with `handle_message`, `handle_start_session`,
  `handle_audio_chunk`, `handle_end_session`, `send_transcription` — the
  FastAPI server object; a session's WebSocket is modelled by the list of
  messages sent on it (`SessionData.outbox`); `base64.b64decode` is embedded
  by `b64decode` (characters outside the alphabet are discarded, then
  4-character groups are decoded, failing on bad grouping or padding).

Machine floats are modelled by `Rat` (all arithmetic the program performs on
samples — int16 division by the power of two 32768 — is exact in float32),
and wall-clock times are inputs.
-/

/-- Result object returned by the external WhisperLive `transcribe` call.
`confidence` and `language` are `Option` because the Python code probes them
with `hasattr`. -/
structure EngineResult where
  text : String
  is_final : Bool
  confidence : Option Rat
  language : Option String
deriving DecidableEq

/-- `StreamingTranscriptionResult` dataclass (`src/server.py:39`).
The Python field `partial` is a Lean keyword, so it is named
`provisional` here; `words : list = None` becomes an `Option` defaulting to
`none`. -/
structure StreamingTranscriptionResult where
  text : String
  is_final : Bool
  confidence : Rat
  language : String
  processing_time : Rat
  timestamp : Rat
  words : Option (List String) := none
  provisional : Bool := false
deriving DecidableEq

/-- State of `WhisperCapRoverTranscriber` (`src/server.py:54-62`): the
`deque(maxlen=16000*5)` audio buffer, the `is_processing` flag, the
`queue.Queue` of results (front of the list = front of the queue) and the
dedup string `last_transcription`. -/
structure WhisperCapRoverTranscriber where
  audio_buffer : List Rat
  is_processing : Bool
  result_queue : List StreamingTranscriptionResult
  last_transcription : String
deriving DecidableEq

/-- The fresh transcriber produced by `__init__`. -/
def initTranscriber : WhisperCapRoverTranscriber :=
  { audio_buffer := []
    is_processing := false
    result_queue := []
    last_transcription := "" }

/-- `maxlen` of the audio deque: 5 seconds at 16 kHz (`src/server.py:57`). -/
def bufferCapacity : Nat := 16000 * 5

/-- `deque.extend` on a deque with `maxlen = cap`: append, then keep only the
most recent `cap` elements (oldest evicted first). -/
def dequeExtend (cap : Nat) (buf xs : List Rat) : List Rat :=
  let l := buf ++ xs
  l.drop (l.length - cap)

/-- The buffer contents after a sequence of `deque.extend` calls starting
from the empty deque: `audio_buffer` after any sequence of appended sample
batches. -/
def ringFold (batches : List (List Rat)) : List Rat :=
  batches.foldl (fun buf xs => dequeExtend bufferCapacity buf xs) []

/-- `list(self.audio_buffer)[-n:]` (`src/server.py:123`): a copy of the most
recent `n` samples, without removing them.  (Agrees with Python slicing for
every `n ≥ 1`; the code only uses `n = 16000 * 2`.) -/
def snapshotLast (buf : List Rat) (n : Nat) : List Rat :=
  buf.drop (buf.length - n)

/-- Two little-endian bytes as a signed 16-bit integer, as
`np.frombuffer(_, dtype=np.int16)` reads them. -/
def int16OfBytes (b0 b1 : Nat) : Int :=
  let v : Nat := b0 + 256 * b1
  if v < 32768 then (v : Int) else (v : Int) - 65536

/-- `audio_array.astype(np.float32) / 32768.0` applied pairwise to a byte
stream: consecutive little-endian byte pairs become normalized samples. -/
def samplesOfBytes : List Nat → List Rat
  | b0 :: b1 :: rest => ((int16OfBytes b0 b1 : Int) : Rat) / 32768 :: samplesOfBytes rest
  | _ => []

/-- `np.frombuffer(audio_data, dtype=np.int16)` followed by the float32
normalization: `none` models the `ValueError` NumPy raises when the buffer
size is not a multiple of the 2-byte element size. -/
def bytesToSamples (bs : List Nat) : Option (List Rat) :=
  if bs.length % 2 = 0 then some (samplesOfBytes bs) else none

/-- `add_audio` (`src/server.py:84-95`): decode the int16 bytes, extend the
bounded deque, and lazily start processing (`_start_processing` sets the
`is_processing` flag).  `none` models the `frombuffer` exception. -/
def add_audio (t : WhisperCapRoverTranscriber) (bytes : List Nat) :
    Option WhisperCapRoverTranscriber :=
  match bytesToSamples bytes with
  | none => none
  | some samples =>
      some { t with
              audio_buffer := dequeExtend bufferCapacity t.audio_buffer samples
              is_processing := true }

/-- `get_results` (`src/server.py:168-176`): drain the FIFO queue with
`get_nowait` until empty, returning the drained results (in arrival order)
and the emptied transcriber. -/
def get_results (t : WhisperCapRoverTranscriber) :
    List StreamingTranscriptionResult × WhisperCapRoverTranscriber :=
  (t.result_queue, { t with result_queue := [] })

/-- `stop` (`src/server.py:178-182`): clear the processing flag (the
subsequent `join(timeout=1.0)` is pure timing). -/
def stop (t : WhisperCapRoverTranscriber) : WhisperCapRoverTranscriber :=
  { t with is_processing := false }

/-- Python `str.strip()` (whitespace trim on both ends), embedded as a
structurally recursive function so it evaluates in the kernel. -/
def pyStrip (s : String) : String :=
  String.mk (((s.toList.dropWhile Char.isWhitespace).reverse.dropWhile
      Char.isWhitespace).reverse)

/-- The `StreamingTranscriptionResult(...)` constructor call at
`src/server.py:136-144`: `text` is the stripped engine text, `confidence`
and `language` default to `0.95` / `"en"` when absent, `words` is never
supplied (so stays `None`), `partial = not result.is_final`. -/
def mkStreamingResult (r : EngineResult) (text : String) (pt ts : Rat) :
    StreamingTranscriptionResult :=
  { text := text
    is_final := r.is_final
    confidence := r.confidence.getD (95 / 100)
    language := r.language.getD "en"
    processing_time := pt
    timestamp := ts
    words := none
    provisional := !r.is_final }

/-- One pass of the `while self.is_processing` body of
`_process_with_whisperlive` (`src/server.py:119-160`): if at least 2 seconds
of audio are buffered, snapshot the most recent 2-second window, invoke the
engine (an engine exception, `.error`, is caught and logged and the
iteration becomes a no-op), drop empty or duplicate text, otherwise enqueue
exactly one result and update `last_transcription`.  `pt` and `ts` are the
measured processing time and the current wall-clock time. -/
def decodeIteration (t : WhisperCapRoverTranscriber)
    (engine : List Rat → Except Unit (Option EngineResult)) (pt ts : Rat) :
    WhisperCapRoverTranscriber :=
  if 16000 * 2 ≤ t.audio_buffer.length then
    match engine (snapshotLast t.audio_buffer (16000 * 2)) with
    | .error _ => t
    | .ok none => t
    | .ok (some r) =>
        let text := pyStrip r.text
        if text = "" then t
        else if text = t.last_transcription then t
        else { t with
                result_queue := t.result_queue ++ [mkStreamingResult r text pt ts]
                last_transcription := text }
  else t

/-- A finite run of the decode loop: one `decodeIteration` per element of
`sched` (the per-pass `(processing_time, timestamp)` inputs), checking the
`is_processing` flag before every pass as the `while` loop does. -/
def decodeLoop (engine : List Rat → Except Unit (Option EngineResult)) :
    WhisperCapRoverTranscriber → List (Rat × Rat) → WhisperCapRoverTranscriber
  | t, [] => t
  | t, step :: rest =>
      if t.is_processing then
        decodeLoop engine (decodeIteration t engine step.1 step.2) rest
      else t

/-- Value of a character in the standard base64 alphabet (`A-Z a-z 0-9 + /`),
`none` for everything else. -/
def b64charVal (c : Char) : Option Nat :=
  if 65 ≤ c.toNat ∧ c.toNat ≤ 90 then some (c.toNat - 65)
  else if 97 ≤ c.toNat ∧ c.toNat ≤ 122 then some (c.toNat - 97 + 26)
  else if 48 ≤ c.toNat ∧ c.toNat ≤ 57 then some (c.toNat - 48 + 52)
  else if c = '+' then some 62
  else if c = '/' then some 63
  else none

/-- Decode base64 characters four at a time; `'='` padding is only accepted
at the very end.  `none` models the `binascii.Error` raised when the number
of data characters is not a multiple of four or padding is misplaced. -/
def decodeQuads : List Char → Option (List Nat)
  | [] => some []
  | c0 :: c1 :: c2 :: c3 :: rest => do
      let v0 ← b64charVal c0
      let v1 ← b64charVal c1
      if c2 = '=' then
        if c3 = '=' ∧ rest = [] then
          some [v0 * 4 + v1 / 16]
        else none
      else do
        let v2 ← b64charVal c2
        if c3 = '=' then
          if rest = [] then
            some [v0 * 4 + v1 / 16, (v1 % 16) * 16 + v2 / 4]
          else none
        else do
          let v3 ← b64charVal c3
          let tail ← decodeQuads rest
          some ((v0 * 4 + v1 / 16) :: ((v1 % 16) * 16 + v2 / 4) ::
                ((v2 % 4) * 64 + v3) :: tail)
  | _ => none

/-- `base64.b64decode` with its default `validate=False`: characters outside
the alphabet are discarded before decoding; `none` models the raised
`binascii.Error`. -/
def b64decode (s : String) : Option (List Nat) :=
  decodeQuads (s.toList.filter (fun c => (b64charVal c).isSome || c == '='))

/-- The Python `int(_)` truncation toward zero applied to a rational. -/
def pyInt (q : Rat) : Int :=
  if 0 ≤ q then ⌊q⌋ else -⌊-q⌋

/-- Messages the server sends on a session's WebSocket (the JSON dictionaries
built in `src/server.py`). -/
inductive OutMsg
  | connection_established (session_id : String)
  | session_started (session_id : String) (timestamp : Rat)
  | session_ended (session_id : String) (timestamp : Rat)
  | transcription (text : String) (is_final : Bool) (confidence : Rat)
      (language : String) (processing_time : Rat) (timestamp : Rat)
      (isPartialField : Bool) (words : Option (List String)) (segment_id : String)
deriving DecidableEq

/-- The `words` field of a sent `transcription` message (`none` for the other
message kinds). -/
def msgWords : OutMsg → Option (Option (List String))
  | .transcription _ _ _ _ _ _ _ w _ => some w
  | _ => none

/-- An inbound WebSocket text frame as `handle_message` classifies it:
`malformed` is a frame `json.loads` rejects; `audioChunk` carries the raw
`data` field (absent field ⇒ `""` via `data.get("data", "")`); `unknown`
is any other `type` value. -/
inductive InMsg
  | malformed
  | startSession
  | audioChunk (dataField : String)
  | endSession
  | unknown (t : String)
deriving DecidableEq

/-- A session's entry in `active_sessions` (`src/server.py:246-251`).  The
WebSocket is modelled by `outbox`, the list of messages sent on it; the
per-session `audio_buffer` and `last_transcription` fields exist but are
never read by the transcription path. -/
structure SessionData where
  start_time : Rat
  audio_buffer : List Rat
  last_transcription : Option String
  outbox : List OutMsg
deriving DecidableEq

/-- State of `WhisperCapRoverServer`: the single transcriber (set once by
`initialize_transcriber`, `None` before that) and the `active_sessions`
dictionary, as an association list keyed by session id. -/
structure WhisperCapRoverServer where
  transcriber : Option WhisperCapRoverTranscriber
  active_sessions : List (String × SessionData)
deriving DecidableEq

/-- Dictionary lookup in `active_sessions`. -/
def findSession (sessions : List (String × SessionData)) (sid : String) :
    Option SessionData :=
  match sessions with
  | [] => none
  | (k, v) :: rest => if k = sid then some v else findSession rest sid

/-- `websocket.send_text` on session `sid`: append the message to that
session's outbox, leaving every other session untouched. -/
def sendText (sessions : List (String × SessionData)) (sid : String)
    (msg : OutMsg) : List (String × SessionData) :=
  match sessions with
  | [] => []
  | (k, v) :: rest =>
      (if k = sid then (k, { v with outbox := v.outbox ++ [msg] }) else (k, v))
        :: sendText rest sid msg

/-- The outbox of session `sid` (empty if the session is absent). -/
def sessionOutbox (srv : WhisperCapRoverServer) (sid : String) : List OutMsg :=
  match findSession srv.active_sessions sid with
  | some sd => sd.outbox
  | none => []

/-- `handle_start_session` (`src/server.py:299-310`): send the
`session_started` confirmation.  If the session id is absent the dictionary
access raises `KeyError`, which the caller `handle_message` catches — the
state is unchanged. -/
def handle_start_session (srv : WhisperCapRoverServer) (sid : String)
    (now : Rat) : WhisperCapRoverServer :=
  match findSession srv.active_sessions sid with
  | none => srv
  | some _ =>
      { srv with active_sessions :=
          sendText srv.active_sessions sid (.session_started sid now) }

/-- `handle_end_session` (`src/server.py:330-340`): send the `session_ended`
confirmation.  Nothing else: the transcriber is not stopped and the session
is not removed from `active_sessions` (that happens only in the disconnect
cleanup of `handle_websocket`). -/
def handle_end_session (srv : WhisperCapRoverServer) (sid : String)
    (now : Rat) : WhisperCapRoverServer :=
  match findSession srv.active_sessions sid with
  | none => srv
  | some _ =>
      { srv with active_sessions :=
          sendText srv.active_sessions sid (.session_ended sid now) }

/-- `segment_id` stamped onto an outgoing transcription
(`src/server.py:358`): `f"{session_id}-{int(result.timestamp * 1000)}"`. -/
def segmentId (sid : String) (ts : Rat) : String :=
  sid ++ "-" ++ toString (pyInt (ts * 1000))

/-- The `transcription` JSON dictionary built by `send_transcription`
(`src/server.py:348-359`); its `words` field is copied from the result. -/
def transcriptionMessage (sid : String) (r : StreamingTranscriptionResult) :
    OutMsg :=
  .transcription r.text r.is_final r.confidence r.language r.processing_time
    r.timestamp r.provisional r.words (segmentId sid r.timestamp)

/-- `send_transcription` (`src/server.py:342-364`): return immediately when
the session id is not registered, otherwise send the transcription message
on that session's WebSocket. -/
def send_transcription (srv : WhisperCapRoverServer) (sid : String)
    (r : StreamingTranscriptionResult) : WhisperCapRoverServer :=
  match findSession srv.active_sessions sid with
  | none => srv
  | some _ =>
      { srv with active_sessions :=
          sendText srv.active_sessions sid (transcriptionMessage sid r) }

/-- `handle_audio_chunk` (`src/server.py:312-328`): base64-decode the `data`
field, feed the bytes to the shared transcriber, drain its result queue and
send every drained result to the requesting session.  Any exception
(bad base64, odd byte count in `frombuffer`, transcriber still `None`) is
caught and logged before any state was mutated, leaving the server
unchanged. -/
def handle_audio_chunk (srv : WhisperCapRoverServer) (sid : String)
    (dataField : String) : WhisperCapRoverServer :=
  match b64decode dataField with
  | none => srv
  | some bytes =>
      match srv.transcriber with
      | none => srv
      | some t =>
          match add_audio t bytes with
          | none => srv
          | some t1 =>
              let drained := get_results t1
              drained.1.foldl (fun s r => send_transcription s sid r)
                { srv with transcriber := some drained.2 }

/-- `handle_message` (`src/server.py:279-297`): dispatch on the decoded
`type`; a `json.JSONDecodeError` (`malformed`) and an unknown type are
logged and dropped, leaving the state unchanged. -/
def handle_message (srv : WhisperCapRoverServer) (sid : String) (m : InMsg)
    (now : Rat) : WhisperCapRoverServer :=
  match m with
  | .malformed => srv
  | .startSession => handle_start_session srv sid now
  | .audioChunk d => handle_audio_chunk srv sid d
  | .endSession => handle_end_session srv sid now
  | .unknown _ => srv

/-- One pass of the background decode thread acting on the server's shared
transcriber (the thread and the handlers interleave; this is the thread's
step). -/
def serverDecodeStep (srv : WhisperCapRoverServer)
    (engine : List Rat → Except Unit (Option EngineResult)) (pt ts : Rat) :
    WhisperCapRoverServer :=
  match srv.transcriber with
  | none => srv
  | some t => { srv with transcriber := some (decodeIteration t engine pt ts) }

/-! Concrete states and inputs used by the theorems below. -/

/-- A transcriber holding exactly the 2-second decode threshold of silent
audio, with the decode thread running. -/
def thresholdTranscriber : WhisperCapRoverTranscriber :=
  { audio_buffer := List.replicate (16000 * 2) 0
    is_processing := true
    result_queue := []
    last_transcription := "" }

/-- An engine result whose text needs stripping. -/
def untrimmedResult : EngineResult :=
  { text := " hi ", is_final := true, confidence := none, language := none }

/-- A stub engine that always returns `untrimmedResult`. -/
def constEngine (_ : List Rat) : Except Unit (Option EngineResult) :=
  .ok (some untrimmedResult)

/-- A stub engine whose `transcribe` call always raises. -/
def raisingEngine (_ : List Rat) : Except Unit (Option EngineResult) :=
  .error ()

/-- A concrete transcription result. -/
def sampleResult : StreamingTranscriptionResult :=
  { text := "hi", is_final := true, confidence := 1, language := "en"
    processing_time := 1, timestamp := 2 }

/-- A fresh session entry as `handle_websocket` creates it
(`src/server.py:246-251`). -/
def freshSession (t0 : Rat) : SessionData :=
  { start_time := t0, audio_buffer := [], last_transcription := none
    outbox := [] }

/-- A server with an initialized transcriber and two live sessions
`"a"` and `"b"`. -/
def twoSessionServer : WhisperCapRoverServer :=
  { transcriber := some initTranscriber
    active_sessions := [("a", freshSession 0), ("b", freshSession 0)] }

/-- A server with one live session `"s"` whose decode thread is running. -/
def endDemoServer : WhisperCapRoverServer :=
  { transcriber := some { audio_buffer := [], is_processing := true,
                          result_queue := [], last_transcription := "" }
    active_sessions := [("s", freshSession 0)] }

/-- A server with an initialized transcriber and no registered sessions. -/
def emptyServer : WhisperCapRoverServer :=
  { transcriber := some initTranscriber, active_sessions := [] }

/-- An input-derived stub engine: it reports whether the audio window is all
zeros. -/
def stubEngine (w : List Rat) : Except Unit (Option EngineResult) :=
  .ok (some { text := if w.all (fun x => x == 0) then "silence" else "speech"
              is_final := true, confidence := some 1, language := some "en" })

/-- The engine result `stubEngine` produces on an all-zero window. -/
def silenceResult : EngineResult :=
  { text := "silence", is_final := true, confidence := some 1
    language := some "en" }

/-- A base64 `data` payload of 85336 `'A'` characters: 64002 zero bytes,
i.e. 32001 silent samples — just above the 2-second decode threshold. -/
def bigAudioData : String := String.mk (List.replicate 85336 'A')

/-- Run in which only session `"b"` is active: `"b"` sends one tiny chunk. -/
def runWithoutA : WhisperCapRoverServer :=
  handle_message twoSessionServer "b" (.audioChunk "AAA=") 3

/-- Run in which session `"a"` first streams 4 seconds of silence and the
decode thread completes one pass, and then `"b"` sends the same tiny chunk
as in `runWithoutA`. -/
def runWithA : WhisperCapRoverServer :=
  handle_message
    (serverDecodeStep
      (handle_message twoSessionServer "a" (.audioChunk bigAudioData) 1)
      stubEngine 1 2)
    "b" (.audioChunk "AAA=") 3

/-- Transcriber state after session `"a"`'s big silent chunk: 32001 zero
samples buffered, processing started. -/
def bigBufTranscriber : WhisperCapRoverTranscriber :=
  { audio_buffer := List.replicate 32001 0
    is_processing := true
    result_queue := []
    last_transcription := "" }

/-- Transcriber state after one decode pass on the silent buffer: one
`"silence"` result queued. -/
def decodedTranscriber : WhisperCapRoverTranscriber :=
  { audio_buffer := List.replicate 32001 0
    is_processing := true
    result_queue := [mkStreamingResult silenceResult "silence" 1 2]
    last_transcription := "silence" }

/-- Server state after `"a"`'s big chunk was handled. -/
def srvAfterBigChunk : WhisperCapRoverServer :=
  { transcriber := some bigBufTranscriber
    active_sessions := [("a", freshSession 0), ("b", freshSession 0)] }

/-- Server state after the decode thread's pass. -/
def srvAfterDecode : WhisperCapRoverServer :=
  { transcriber := some decodedTranscriber
    active_sessions := [("a", freshSession 0), ("b", freshSession 0)] }

/-! Helper lemmas. -/

theorem suffix_append_same {α : Type} {l₁ l₂ : List α} (h : l₁ <:+ l₂)
    (t : List α) : l₁ ++ t <:+ l₂ ++ t := by
  obtain ⟨w, rfl⟩ := h
  exact ⟨w, (List.append_assoc w l₁ t).symm⟩

theorem dequeExtend_length (cap : Nat) (buf xs : List Rat) :
    (dequeExtend cap buf xs).length = min cap (buf.length + xs.length) := by
  simp [dequeExtend]
  omega

theorem dequeExtend_suffix (cap : Nat) (buf xs : List Rat) :
    dequeExtend cap buf xs <:+ buf ++ xs :=
  List.drop_suffix _ _

theorem foldl_dequeExtend_length_le (cap : Nat) (batches : List (List Rat))
    (buf : List Rat) (h : buf.length ≤ cap) :
    (batches.foldl (fun b xs => dequeExtend cap b xs) buf).length ≤ cap := by
  induction batches generalizing buf with
  | nil => simpa using h
  | cons x rest ih =>
      refine ih _ ?_
      rw [dequeExtend_length]
      omega

theorem foldl_dequeExtend_suffix (cap : Nat) (batches : List (List Rat))
    (buf : List Rat) :
    (batches.foldl (fun b xs => dequeExtend cap b xs) buf) <:+
      buf ++ batches.flatten := by
  induction batches generalizing buf with
  | nil => simp
  | cons x rest ih =>
      have h1 := ih (dequeExtend cap buf x)
      have h2 := suffix_append_same (dequeExtend_suffix cap buf x) rest.flatten
      have h3 := h1.trans h2
      simpa [List.append_assoc] using h3

theorem findSession_sendText_same (sessions : List (String × SessionData))
    (sid : String) (msg : OutMsg) :
    findSession (sendText sessions sid msg) sid
      = (findSession sessions sid).map
          (fun sd => { sd with outbox := sd.outbox ++ [msg] }) := by
  induction sessions with
  | nil => rfl
  | cons p rest ih =>
      obtain ⟨k, v⟩ := p
      by_cases hk : k = sid
      · subst hk
        have e1 : sendText ((k, v) :: rest) k msg
            = (k, { v with outbox := v.outbox ++ [msg] }) :: sendText rest k msg := by
          simp [sendText]
        rw [e1]
        simp [findSession]
      · have e1 : sendText ((k, v) :: rest) sid msg
            = (k, v) :: sendText rest sid msg := by
          simp [sendText, hk]
        have e2 : ∀ l : List (String × SessionData),
            findSession ((k, v) :: l) sid = findSession l sid := by
          intro l
          simp [findSession, hk]
        rw [e1, e2, e2]
        exact ih

theorem findSession_sendText_other (sessions : List (String × SessionData))
    (sid sid2 : String) (msg : OutMsg) (h : sid2 ≠ sid) :
    findSession (sendText sessions sid msg) sid2
      = findSession sessions sid2 := by
  induction sessions with
  | nil => rfl
  | cons p rest ih =>
      obtain ⟨k, v⟩ := p
      by_cases hk : k = sid
      · have hk2 : k ≠ sid2 := by rw [hk]; exact fun hc => h hc.symm
        have e1 : sendText ((k, v) :: rest) sid msg
            = (k, { v with outbox := v.outbox ++ [msg] }) :: sendText rest sid msg := by
          simp [sendText, hk]
        have e2 : ∀ (w : SessionData) (l : List (String × SessionData)),
            findSession ((k, w) :: l) sid2 = findSession l sid2 := by
          intro w l
          simp [findSession, hk2]
        rw [e1, e2, e2]
        exact ih
      · have e1 : sendText ((k, v) :: rest) sid msg
            = (k, v) :: sendText rest sid msg := by
          simp [sendText, hk]
        by_cases hk2 : k = sid2
        · subst hk2
          rw [e1]
          simp [findSession]
        · have e2 : ∀ l : List (String × SessionData),
              findSession ((k, v) :: l) sid2 = findSession l sid2 := by
            intro l
            simp [findSession, hk2]
          rw [e1, e2, e2]
          exact ih

/-- C3: for every sequence of appended sample batches the audio ring buffer
never exceeds its configured capacity of 80,000 samples (5 seconds at
16 kHz); the retained contents are always a suffix of the concatenation of
everything appended (oldest samples are evicted first, order preserved); and
`snapshotLast n` returns exactly `min n size` of the most recently appended
samples in their original order — being a pure copy, it removes nothing. -/
theorem C3_ring_buffer_invariant (batches : List (List Rat)) (n : Nat) :
    (ringFold batches).length ≤ 16000 * 5 ∧
    ringFold batches <:+ batches.flatten ∧
    (snapshotLast (ringFold batches) n).length
      = min n (ringFold batches).length ∧
    snapshotLast (ringFold batches) n <:+ ringFold batches := by
  refine ⟨?_, ?_, ?_, List.drop_suffix _ _⟩
  · exact foldl_dequeExtend_length_le bufferCapacity batches [] (by simp)
  · simpa using foldl_dequeExtend_suffix bufferCapacity batches []
  · simp only [snapshotLast, List.length_drop]
    omega

/-- C7: `get_results` drains the result queue: it returns every currently
queued result in first-in-first-out arrival order, leaves the queue empty,
returns `[]` when nothing is pending, and never blocks (it is a total
function of the state).  The decode loop only appends to the back of the
queue, so drained results come out in the order they were enqueued. -/
theorem C7_drain_fifo (t : WhisperCapRoverTranscriber) :
    (get_results t).1 = t.result_queue ∧
    (get_results t).2.result_queue = [] ∧
    (get_results (get_results t).2).1 = [] ∧
    ∀ engine pt ts, ∃ extra,
      (decodeIteration t engine pt ts).result_queue
        = t.result_queue ++ extra := by
  refine ⟨rfl, rfl, rfl, ?_⟩
  intro engine pt ts
  unfold decodeIteration
  by_cases hlen : 16000 * 2 ≤ t.audio_buffer.length
  · rw [if_pos hlen]
    cases heng : engine (snapshotLast t.audio_buffer (16000 * 2)) with
    | error e => exact ⟨[], by simp⟩
    | ok o =>
        cases o with
        | none => exact ⟨[], by simp⟩
        | some r =>
            by_cases h1 : pyStrip r.text = ""
            · exact ⟨[], by simp [h1]⟩
            · by_cases h2 : pyStrip r.text = t.last_transcription
              · exact ⟨[], by simp [h1, h2]⟩
              · exact ⟨[mkStreamingResult r (pyStrip r.text) pt ts],
                  by simp [h1, h2]⟩
  · rw [if_neg hlen]
    exact ⟨[], by simp⟩

/-- C10: invoking `send_transcription` with a session id that is not in the
active-session registry is a no-op: it returns the server state unchanged
(no message is sent to anybody, the registry is untouched) and, being total,
raises no error. -/
theorem C10_send_absent_noop (srv : WhisperCapRoverServer) (sid : String)
    (r : StreamingTranscriptionResult)
    (h : findSession srv.active_sessions sid = none) :
    send_transcription srv sid r = srv := by
  unfold send_transcription
  rw [h]

/-- Witness for C10 at a concrete input: the server with no registered
sessions, session id `"ghost"`, and a concrete result. -/
theorem C10_send_absent_noop_witness :
    findSession emptyServer.active_sessions "ghost" = none ∧
    send_transcription emptyServer "ghost" sampleResult = emptyServer :=
  ⟨rfl, C10_send_absent_noop emptyServer "ghost" sampleResult rfl⟩

/-- C1 counterexample: on a concrete server with live session `"s"` and a
running transcriber, `handle_end_session` leaves the transcriber's
processing flag `true` (the DecodeLoop is not stopped, `stop` is never
invoked) and leaves the session registered — contradicting the claim that
the flag becomes false and a subsequent registry lookup returns absent.
Only the end-confirmation message is emitted. -/
theorem C1_counterexample :
    (handle_end_session endDemoServer "s" 7).transcriber
      = some { audio_buffer := [], is_processing := true, result_queue := [],
               last_transcription := "" } ∧
    (findSession (handle_end_session endDemoServer "s" 7).active_sessions
        "s").isSome = true ∧
    sessionOutbox (handle_end_session endDemoServer "s" 7) "s"
      = [OutMsg.session_ended "s" 7] := by
  refine ⟨rfl, rfl, rfl⟩

/-- C1 (amended): handling an `end_session` message emits exactly the
end-confirmation message on the session's connection and performs no
teardown: the transcriber — hence the DecodeLoop's processing flag and
thread — is untouched, and the session's registry entry remains present
(removal happens only in the disconnect cleanup of `handle_websocket`). -/
theorem C1_end_session_amended (srv : WhisperCapRoverServer) (sid : String)
    (now : Rat) (sd : SessionData)
    (h : findSession srv.active_sessions sid = some sd) :
    (handle_end_session srv sid now).transcriber = srv.transcriber ∧
    findSession (handle_end_session srv sid now).active_sessions sid
      = some { sd with outbox := sd.outbox ++ [OutMsg.session_ended sid now] } := by
  unfold handle_end_session
  rw [h]
  exact ⟨rfl, by rw [findSession_sendText_same, h]; rfl⟩

/-- Witness for the amended C1 at a concrete input: session `"s"` of
`endDemoServer`. -/
theorem C1_end_session_amended_witness :
    findSession endDemoServer.active_sessions "s" = some (freshSession 0) ∧
    ((handle_end_session endDemoServer "s" 7).transcriber
        = endDemoServer.transcriber ∧
     findSession (handle_end_session endDemoServer "s" 7).active_sessions "s"
        = some { freshSession 0 with
                  outbox := (freshSession 0).outbox
                    ++ [OutMsg.session_ended "s" 7] }) :=
  ⟨rfl, C1_end_session_amended endDemoServer "s" 7 (freshSession 0) rfl⟩

theorem decodeIteration_push (t : WhisperCapRoverTranscriber)
    (engine : List Rat → Except Unit (Option EngineResult)) (r : EngineResult)
    (pt ts : Rat) (hbuf : 16000 * 2 ≤ t.audio_buffer.length)
    (heng : engine (snapshotLast t.audio_buffer (16000 * 2))
      = Except.ok (some r))
    (h1 : pyStrip r.text ≠ "") (h2 : pyStrip r.text ≠ t.last_transcription) :
    decodeIteration t engine pt ts
      = { t with
            result_queue :=
              t.result_queue ++ [mkStreamingResult r (pyStrip r.text) pt ts]
            last_transcription := pyStrip r.text } := by
  unfold decodeIteration
  rw [if_pos hbuf, heng]
  simp [h1, h2]

theorem decodeIteration_skip (t : WhisperCapRoverTranscriber)
    (engine : List Rat → Except Unit (Option EngineResult)) (r : EngineResult)
    (pt ts : Rat)
    (heng : engine (snapshotLast t.audio_buffer (16000 * 2))
      = Except.ok (some r))
    (h : pyStrip r.text = "" ∨ pyStrip r.text = t.last_transcription) :
    decodeIteration t engine pt ts = t := by
  unfold decodeIteration
  by_cases hbuf : 16000 * 2 ≤ t.audio_buffer.length
  · rw [if_pos hbuf, heng]
    rcases h with h | h
    · simp [h]
    · simp [h]
  · rw [if_neg hbuf]

theorem decodeLoop_const_dup (r : EngineResult) (t : WhisperCapRoverTranscriber)
    (sched : List (Rat × Rat))
    (hlast : pyStrip r.text = t.last_transcription) :
    decodeLoop (fun _ => Except.ok (some r)) t sched = t := by
  induction sched with
  | nil => rfl
  | cons s rest ih =>
      simp only [decodeLoop]
      by_cases hp : t.is_processing = true
      · rw [if_pos hp,
          decodeIteration_skip t (fun _ => Except.ok (some r)) r s.1 s.2 rfl
            (Or.inr hlast)]
        exact ih
      · rw [if_neg hp]

/-- C4: in every decode-loop iteration (with enough buffered audio for the
engine to be invoked), if the engine's stripped text is empty or equals the
last-emitted text, nothing is pushed and `last_transcription` is unchanged;
otherwise exactly one `StreamingTranscriptionResult` is appended to the
queue and `last_transcription` becomes the new text.  Consequently an engine
returning the same (non-empty) text on every iteration yields exactly one
emitted result in total. -/
theorem C4_dedup (t : WhisperCapRoverTranscriber)
    (engine : List Rat → Except Unit (Option EngineResult)) (r : EngineResult)
    (pt ts : Rat) (hbuf : 16000 * 2 ≤ t.audio_buffer.length)
    (heng : engine (snapshotLast t.audio_buffer (16000 * 2))
      = Except.ok (some r)) :
    ((pyStrip r.text = "" ∨ pyStrip r.text = t.last_transcription) →
        decodeIteration t engine pt ts = t) ∧
    (pyStrip r.text ≠ "" → pyStrip r.text ≠ t.last_transcription →
        (decodeIteration t engine pt ts).result_queue
          = t.result_queue ++ [mkStreamingResult r (pyStrip r.text) pt ts] ∧
        (decodeIteration t engine pt ts).last_transcription
          = pyStrip r.text) ∧
    (∀ n, 1 ≤ n → t.is_processing = true → t.result_queue = [] →
        t.last_transcription = "" → pyStrip r.text ≠ "" →
        (decodeLoop (fun _ => Except.ok (some r)) t
            (List.replicate n (pt, ts))).result_queue.length = 1) := by
  refine ⟨fun h => decodeIteration_skip t engine r pt ts heng h,
    fun h1 h2 => by
      rw [decodeIteration_push t engine r pt ts hbuf heng h1 h2]
      exact ⟨rfl, rfl⟩,
    ?_⟩
  intro n hn hp hq hl htrim
  obtain ⟨m, rfl⟩ : ∃ m, n = m + 1 := ⟨n - 1, by omega⟩
  rw [List.replicate_succ]
  simp only [decodeLoop]
  rw [if_pos hp]
  have h2 : pyStrip r.text ≠ t.last_transcription := by
    rw [hl]; exact htrim
  rw [decodeIteration_push t (fun _ => Except.ok (some r)) r pt ts hbuf rfl
      htrim h2,
    decodeLoop_const_dup r _ _ rfl]
  show (t.result_queue ++ [mkStreamingResult r (pyStrip r.text) pt ts]).length
    = 1
  rw [hq]
  rfl

/-- Witness for C4 at a concrete input: a transcriber holding exactly the
decode threshold of audio, and a stub engine that always returns `" hi "`;
three loop iterations emit exactly one result. -/
theorem C4_dedup_witness :
    16000 * 2 ≤ thresholdTranscriber.audio_buffer.length ∧
    (decodeLoop (fun _ => Except.ok (some untrimmedResult))
        thresholdTranscriber
        (List.replicate 3 ((1 : Rat), (2 : Rat)))).result_queue.length = 1 := by
  have hbuf : 16000 * 2 ≤ thresholdTranscriber.audio_buffer.length := by
    rw [show thresholdTranscriber.audio_buffer
        = List.replicate (16000 * 2) 0 from rfl, List.length_replicate]
  exact ⟨hbuf,
    (C4_dedup thresholdTranscriber constEngine untrimmedResult 1 2 hbuf
        rfl).2.2 3 (by omega) rfl rfl rfl (by decide)⟩

/-- C6: when the engine invocation raises, the decode iteration is a no-op
apart from logging: nothing is emitted, the transcriber state — including
the processing flag — is unchanged, and the loop proceeds to the next
iteration instead of terminating. -/
theorem C6_engine_error_skipped (t : WhisperCapRoverTranscriber)
    (engine : List Rat → Except Unit (Option EngineResult)) (pt ts : Rat)
    (h : engine (snapshotLast t.audio_buffer (16000 * 2))
      = Except.error ()) :
    decodeIteration t engine pt ts = t ∧
    (decodeIteration t engine pt ts).is_processing = t.is_processing ∧
    ∀ rest, t.is_processing = true →
      decodeLoop engine t ((pt, ts) :: rest) = decodeLoop engine t rest := by
  have hiter : decodeIteration t engine pt ts = t := by
    unfold decodeIteration
    by_cases hbuf : 16000 * 2 ≤ t.audio_buffer.length
    · rw [if_pos hbuf, h]
    · rw [if_neg hbuf]
  refine ⟨hiter, by rw [hiter], ?_⟩
  intro rest hp
  simp only [decodeLoop]
  rw [if_pos hp, show decodeIteration t engine (pt, ts).1 (pt, ts).2 = t
    from hiter]

/-- Witness for C6 at a concrete input: a fresh transcriber and an engine
that always raises. -/
theorem C6_engine_error_witness :
    raisingEngine (snapshotLast initTranscriber.audio_buffer (16000 * 2))
      = Except.error () ∧
    decodeIteration initTranscriber raisingEngine 1 2 = initTranscriber :=
  ⟨rfl, (C6_engine_error_skipped initTranscriber raisingEngine 1 2 rfl).1⟩

/-- C5: a malformed inbound message — unparsable JSON, or an `audio_chunk`
whose `data` field is not valid base64 — is caught and dropped: the server
state (registry, every session, the transcriber) is unchanged, the session
stays live, and any subsequent message is processed exactly as it would have
been without the bad one. -/
theorem C5_malformed_isolated (srv : WhisperCapRoverServer) (sid : String)
    (m : InMsg) (now : Rat)
    (h : m = InMsg.malformed ∨
      ∃ d, m = InMsg.audioChunk d ∧ b64decode d = none) :
    handle_message srv sid m now = srv ∧
    ∀ m2 now2, handle_message (handle_message srv sid m now) sid m2 now2
      = handle_message srv sid m2 now2 := by
  have h1 : handle_message srv sid m now = srv := by
    rcases h with rfl | ⟨d, rfl, hd⟩
    · rfl
    · show handle_audio_chunk srv sid d = srv
      unfold handle_audio_chunk
      rw [hd]
  exact ⟨h1, fun m2 now2 => by rw [h1]⟩

/-- Witness for C5 at a concrete input: the string `"abc!"` is rejected by
base64 decoding (three data characters), and the two-session server is left
unchanged. -/
theorem C5_malformed_witness :
    (InMsg.audioChunk "abc!" = InMsg.malformed ∨
      ∃ d, InMsg.audioChunk "abc!" = InMsg.audioChunk d ∧ b64decode d = none) ∧
    handle_message twoSessionServer "a" (InMsg.audioChunk "abc!") 5
      = twoSessionServer := by
  have hh : InMsg.audioChunk "abc!" = InMsg.malformed ∨
      ∃ d, InMsg.audioChunk "abc!" = InMsg.audioChunk d ∧ b64decode d = none :=
    Or.inr ⟨"abc!", rfl, by decide⟩
  exact ⟨hh, (C5_malformed_isolated twoSessionServer "a" _ 5 hh).1⟩

theorem samplesOfBytes_length : ∀ bs : List Nat,
    (samplesOfBytes bs).length = bs.length / 2
  | [] => rfl
  | [_] => by simp [samplesOfBytes]
  | b0 :: b1 :: rest => by
      simp only [samplesOfBytes, List.length_cons,
        samplesOfBytes_length rest]
      omega

theorem samplesOfBytes_getD : ∀ (bs : List Nat) (i : Nat),
    i < (samplesOfBytes bs).length →
    (samplesOfBytes bs).getD i 0
      = ((int16OfBytes (bs.getD (2 * i) 0) (bs.getD (2 * i + 1) 0) : Int)
          : Rat) / 32768
  | [], i, h => by simp [samplesOfBytes] at h
  | [_], i, h => by simp [samplesOfBytes] at h
  | b0 :: b1 :: rest, 0, _ => by simp [samplesOfBytes]
  | b0 :: b1 :: rest, i + 1, h => by
      have ih := samplesOfBytes_getD rest i
        (by simpa [samplesOfBytes] using h)
      have e1 : 2 * (i + 1) = 2 * i + 1 + 1 := by omega
      have e2 : 2 * (i + 1) + 1 = 2 * i + 1 + 1 + 1 := by omega
      simp only [samplesOfBytes, List.getD_cons_succ, e1, e2]
      exact ih

theorem int16OfBytes_bounds (b0 b1 : Nat) (h0 : b0 < 256) (h1 : b1 < 256) :
    -32768 ≤ int16OfBytes b0 b1 ∧ int16OfBytes b0 b1 ≤ 32767 := by
  unfold int16OfBytes
  dsimp only
  split <;> omega

theorem sample_in_range (v : Int) (h1 : -32768 ≤ v) (h2 : v ≤ 32767) :
    -1 ≤ ((v : Rat) / 32768) ∧ ((v : Rat) / 32768) ≤ 1 := by
  have hv1 : (-32768 : Rat) ≤ (v : Rat) := by exact_mod_cast h1
  have hv2 : (v : Rat) ≤ 32767 := by exact_mod_cast h2
  constructor
  · rw [le_div_iff₀ (by norm_num : (0 : Rat) < 32768)]
    linarith
  · rw [div_le_iff₀ (by norm_num : (0 : Rat) < 32768)]
    linarith

theorem samplesOfBytes_mem_range : ∀ bs : List Nat, (∀ b ∈ bs, b < 256) →
    ∀ s ∈ samplesOfBytes bs, -1 ≤ s ∧ s ≤ 1
  | [], _, s, hs => by simp [samplesOfBytes] at hs
  | [_], _, s, hs => by simp [samplesOfBytes] at hs
  | b0 :: b1 :: rest, hb, s, hs => by
      simp only [samplesOfBytes, List.mem_cons] at hs
      rcases hs with rfl | hs
      · obtain ⟨hl, hr⟩ := int16OfBytes_bounds b0 b1
          (hb b0 (by simp)) (hb b1 (by simp))
        exact sample_in_range _ hl hr
      · exact samplesOfBytes_mem_range rest
          (fun b hbm => hb b (by simp [hbm])) s hs

/-- C8: for every even-length byte string of 16-bit signed little-endian PCM
passed to `add_audio`, the decoded sample list has one sample per byte pair,
each sample equals the signed 16-bit value divided by 32768, every sample
lies in `[-1, 1]`, and `add_audio` stores exactly these samples in the
bounded buffer. -/
theorem C8_pcm_normalization (bytes : List Nat)
    (heven : bytes.length % 2 = 0) (hbyte : ∀ b ∈ bytes, b < 256) :
    ∃ samples, bytesToSamples bytes = some samples ∧
      samples.length = bytes.length / 2 ∧
      (∀ i, i < samples.length →
          samples.getD i 0
            = ((int16OfBytes (bytes.getD (2 * i) 0) (bytes.getD (2 * i + 1) 0)
                : Int) : Rat) / 32768) ∧
      (∀ s ∈ samples, -1 ≤ s ∧ s ≤ 1) ∧
      ∀ t, add_audio t bytes
        = some { t with
                  audio_buffer :=
                    dequeExtend bufferCapacity t.audio_buffer samples
                  is_processing := true } := by
  refine ⟨samplesOfBytes bytes, ?_, samplesOfBytes_length bytes,
    fun i hi => samplesOfBytes_getD bytes i hi,
    samplesOfBytes_mem_range bytes hbyte, fun t => ?_⟩
  · unfold bytesToSamples
    rw [if_pos heven]
  · unfold add_audio bytesToSamples
    rw [if_pos heven]

/-- Witness for C8 at a concrete input: the byte pair `[0, 128]`, the most
negative 16-bit sample (−32768, normalizing to −1). -/
theorem C8_pcm_normalization_witness :
    ([0, 128] : List Nat).length % 2 = 0 ∧
    (∀ b ∈ ([0, 128] : List Nat), b < 256) ∧
    ∃ samples, bytesToSamples [0, 128] = some samples ∧
      samples.length = ([0, 128] : List Nat).length / 2 ∧
      (∀ i, i < samples.length →
          samples.getD i 0
            = ((int16OfBytes (([0, 128] : List Nat).getD (2 * i) 0)
                  (([0, 128] : List Nat).getD (2 * i + 1) 0)
                : Int) : Rat) / 32768) ∧
      (∀ s ∈ samples, -1 ≤ s ∧ s ≤ 1) ∧
      ∀ t, add_audio t [0, 128]
        = some { t with
                  audio_buffer :=
                    dequeExtend bufferCapacity t.audio_buffer samples
                  is_processing := true } :=
  ⟨by decide, by decide, C8_pcm_normalization [0, 128] (by decide) (by decide)⟩

theorem decodeIteration_words_none (t : WhisperCapRoverTranscriber)
    (engine : List Rat → Except Unit (Option EngineResult)) (pt ts : Rat) :
    ∀ r2 ∈ (decodeIteration t engine pt ts).result_queue,
      r2 ∈ t.result_queue ∨ r2.words = none := by
  intro r2 hr2
  unfold decodeIteration at hr2
  by_cases hbuf : 16000 * 2 ≤ t.audio_buffer.length
  · rw [if_pos hbuf] at hr2
    cases heng : engine (snapshotLast t.audio_buffer (16000 * 2)) with
    | error e => rw [heng] at hr2; exact Or.inl hr2
    | ok o =>
        cases o with
        | none => rw [heng] at hr2; exact Or.inl hr2
        | some r =>
            rw [heng] at hr2
            by_cases h1 : pyStrip r.text = ""
            · simp only [h1, if_pos] at hr2
              exact Or.inl (by simpa using hr2)
            · by_cases h2 : pyStrip r.text = t.last_transcription
              · simp only [h1, h2] at hr2
                exact Or.inl (by simpa [h1, h2] using hr2)
              · simp only [h1, h2] at hr2
                have : r2 ∈ t.result_queue ++
                    [mkStreamingResult r (pyStrip r.text) pt ts] := by
                  simpa [h1, h2] using hr2
                rcases List.mem_append.1 this with h | h
                · exact Or.inl h
                · simp only [List.mem_singleton] at h
                  subst h
                  exact Or.inr rfl
  · rw [if_neg hbuf] at hr2
    exact Or.inl hr2

theorem decodeLoop_words_none
    (engine : List Rat → Except Unit (Option EngineResult))
    (sched : List (Rat × Rat)) :
    ∀ t : WhisperCapRoverTranscriber,
      (∀ r ∈ t.result_queue, r.words = none) →
      ∀ r ∈ (decodeLoop engine t sched).result_queue, r.words = none := by
  induction sched with
  | nil => exact fun t ht => ht
  | cons s rest ih =>
      intro t ht
      simp only [decodeLoop]
      by_cases hp : t.is_processing = true
      · rw [if_pos hp]
        refine ih _ ?_
        intro r hr
        rcases decodeIteration_words_none t engine s.1 s.2 r hr with h | h
        · exact ht r h
        · exact h
      · rw [if_neg hp]
        exact ht

/-- C9: every result the decode loop ever emits has `words = None` (the
constructor never supplies the field), and the wire message built by
`send_transcription` copies that field verbatim — so every `transcription`
message carries a null `words` field. -/
theorem C9_words_always_none (t : WhisperCapRoverTranscriber)
    (engine : List Rat → Except Unit (Option EngineResult))
    (sched : List (Rat × Rat))
    (h : ∀ r ∈ t.result_queue, r.words = none) :
    (∀ r ∈ (decodeLoop engine t sched).result_queue, r.words = none) ∧
    ∀ sid r, msgWords (transcriptionMessage sid r) = some r.words :=
  ⟨decodeLoop_words_none engine sched t h, fun _ _ => rfl⟩

/-- Witness for C9 at a concrete input: the fresh transcriber (empty queue)
run for one scheduled pass of the stub engine. -/
theorem C9_words_always_none_witness :
    (∀ r ∈ initTranscriber.result_queue, r.words = none) ∧
    ∀ r ∈ (decodeLoop stubEngine initTranscriber
        [((1 : Rat), (2 : Rat))]).result_queue, r.words = none := by
  have h : ∀ r ∈ initTranscriber.result_queue, r.words = none := by
    intro r hr
    simp [initTranscriber] at hr
  exact ⟨h,
    (C9_words_always_none initTranscriber stubEngine [(1, 2)] h).1⟩

theorem send_transcription_transcriber (srv : WhisperCapRoverServer)
    (sid : String) (r : StreamingTranscriptionResult) :
    (send_transcription srv sid r).transcriber = srv.transcriber := by
  unfold send_transcription
  cases findSession srv.active_sessions sid with
  | none => rfl
  | some sd => rfl

theorem foldl_send_transcriber (results : List StreamingTranscriptionResult)
    (sid : String) :
    ∀ srv : WhisperCapRoverServer,
      (results.foldl (fun s r => send_transcription s sid r) srv).transcriber
        = srv.transcriber := by
  induction results with
  | nil => exact fun srv => rfl
  | cons r rest ih =>
      intro srv
      simp only [List.foldl_cons]
      rw [ih (send_transcription srv sid r),
        send_transcription_transcriber]

theorem send_transcription_other (srv : WhisperCapRoverServer)
    (sid sid2 : String) (r : StreamingTranscriptionResult) (h : sid2 ≠ sid) :
    findSession (send_transcription srv sid r).active_sessions sid2
      = findSession srv.active_sessions sid2 := by
  unfold send_transcription
  cases findSession srv.active_sessions sid with
  | none => rfl
  | some sd => exact findSession_sendText_other _ sid sid2 _ h

theorem foldl_send_other (results : List StreamingTranscriptionResult)
    (sid sid2 : String) (h : sid2 ≠ sid) :
    ∀ srv : WhisperCapRoverServer,
      findSession
        (results.foldl (fun s r => send_transcription s sid r)
          srv).active_sessions sid2
        = findSession srv.active_sessions sid2 := by
  induction results with
  | nil => exact fun srv => rfl
  | cons r rest ih =>
      intro srv
      simp only [List.foldl_cons]
      rw [ih (send_transcription srv sid r),
        send_transcription_other srv sid sid2 r h]

theorem handle_audio_chunk_transcriber (srv : WhisperCapRoverServer)
    (sid : String) (d : String) :
    (handle_audio_chunk srv sid d).transcriber
      = match b64decode d with
        | none => srv.transcriber
        | some bytes =>
            match srv.transcriber with
            | none => none
            | some t =>
                match add_audio t bytes with
                | none => srv.transcriber
                | some t1 => some (get_results t1).2 := by
  unfold handle_audio_chunk
  cases b64decode d with
  | none => rfl
  | some bytes =>
      dsimp only
      cases ht : srv.transcriber with
      | none => exact ht
      | some t =>
          dsimp only
          cases add_audio t bytes with
          | none => exact ht
          | some t1 =>
              dsimp only
              rw [foldl_send_transcriber]

theorem handle_audio_chunk_other (srv : WhisperCapRoverServer)
    (sid sid2 d : String) (h : sid2 ≠ sid) :
    findSession (handle_audio_chunk srv sid d).active_sessions sid2
      = findSession srv.active_sessions sid2 := by
  unfold handle_audio_chunk
  cases b64decode d with
  | none => rfl
  | some bytes =>
      dsimp only
      cases ht : srv.transcriber with
      | none => rfl
      | some t =>
          dsimp only
          cases add_audio t bytes with
          | none => rfl
          | some t1 =>
              dsimp only
              rw [foldl_send_other _ sid sid2 h]

/-- C2 (amended): the buffering, decoding and deduplication state is a
single transcriber shared by every session — the transcriber state reached
by handling an audio chunk does not depend on which session sent it — and
the only per-session part of the pipeline is delivery: handling a chunk from
one session never writes to any other session's connection. -/
theorem C2_shared_transcriber_amended (srv : WhisperCapRoverServer)
    (sid sid2 d : String) (h : sid2 ≠ sid) :
    sessionOutbox (handle_audio_chunk srv sid d) sid2
      = sessionOutbox srv sid2 ∧
    ∀ sid3, (handle_audio_chunk srv sid d).transcriber
      = (handle_audio_chunk srv sid3 d).transcriber := by
  refine ⟨?_, fun sid3 => by
    rw [handle_audio_chunk_transcriber, handle_audio_chunk_transcriber]⟩
  unfold sessionOutbox
  rw [handle_audio_chunk_other srv sid sid2 d h]

/-- Witness for the amended C2 at a concrete input: the two-session server,
a chunk sent by `"a"`, observed from `"b"`. -/
theorem C2_shared_transcriber_amended_witness :
    ("b" : String) ≠ "a" ∧
    (sessionOutbox (handle_audio_chunk twoSessionServer "a" "AAA=") "b"
        = sessionOutbox twoSessionServer "b" ∧
     ∀ sid3, (handle_audio_chunk twoSessionServer "a" "AAA=").transcriber
        = (handle_audio_chunk twoSessionServer sid3 "AAA=").transcriber) :=
  ⟨by decide,
    C2_shared_transcriber_amended twoSessionServer "a" "b" "AAA=" (by decide)⟩

theorem decodeQuads_replicate_A : ∀ k : Nat,
    decodeQuads (List.replicate (4 * k) 'A')
      = some (List.replicate (3 * k) 0)
  | 0 => rfl
  | k + 1 => by
      have e4 : 4 * (k + 1) = 4 + 4 * k := by omega
      have e3 : 3 * (k + 1) = 3 + 3 * k := by omega
      rw [e4, e3, List.replicate_add, List.replicate_add]
      have step : decodeQuads
            (List.replicate 4 'A' ++ List.replicate (4 * k) 'A')
          = Option.bind (decodeQuads (List.replicate (4 * k) 'A'))
              (fun tail => some (0 :: 0 :: 0 :: tail)) := rfl
      rw [step, decodeQuads_replicate_A k]
      rfl

theorem filter_b64_replicate_A (m : Nat) :
    (List.replicate m 'A').filter
        (fun c => (b64charVal c).isSome || c == '=')
      = List.replicate m 'A' := by
  rw [List.filter_eq_self]
  intro a ha
  rw [List.mem_replicate] at ha
  rw [ha.2]
  decide

theorem b64decode_bigAudioData :
    b64decode bigAudioData = some (List.replicate 64002 0) := by
  unfold b64decode bigAudioData
  rw [show (String.mk (List.replicate 85336 'A')).toList
      = List.replicate 85336 'A' from rfl]
  rw [filter_b64_replicate_A]
  rw [show (85336 : Nat) = 4 * 21334 from by norm_num]
  rw [decodeQuads_replicate_A]

theorem samplesOfBytes_replicate_zero : ∀ m : Nat,
    samplesOfBytes (List.replicate (2 * m) 0) = List.replicate m 0
  | 0 => rfl
  | m + 1 => by
      have e2 : 2 * (m + 1) = 2 + 2 * m := by omega
      have e1 : m + 1 = 1 + m := by omega
      rw [e2, e1, List.replicate_add, List.replicate_add]
      have step : samplesOfBytes
            (List.replicate 2 (0 : Nat) ++ List.replicate (2 * m) 0)
          = ((int16OfBytes 0 0 : Int) : Rat) / 32768
              :: samplesOfBytes (List.replicate (2 * m) 0) := rfl
      rw [step, samplesOfBytes_replicate_zero m]
      have hz : ((int16OfBytes 0 0 : Int) : Rat) / 32768 = 0 := by
        norm_num [int16OfBytes]
      rw [hz]
      rfl

theorem bytesToSamples_bigChunk :
    bytesToSamples (List.replicate 64002 0)
      = some (List.replicate 32001 0) := by
  unfold bytesToSamples
  rw [List.length_replicate, if_pos (by norm_num : 64002 % 2 = 0)]
  rw [show (64002 : Nat) = 2 * 32001 from by norm_num]
  exact congrArg some (samplesOfBytes_replicate_zero 32001)

theorem all_zero_replicate (n : Nat) :
    (List.replicate n (0 : Rat)).all (fun x => x == 0) = true := by
  rw [List.all_eq_true]
  intro x hx
  rw [List.mem_replicate] at hx
  rw [hx.2]
  exact beq_self_eq_true 0

theorem stubEngine_silence :
    stubEngine (List.replicate 32000 0) = Except.ok (some silenceResult) := by
  unfold stubEngine silenceResult
  rw [all_zero_replicate]
  rfl

theorem dequeExtend_small (cap : Nat) (xs : List Rat) (h : xs.length ≤ cap) :
    dequeExtend cap [] xs = xs := by
  unfold dequeExtend
  dsimp only
  rw [List.nil_append, Nat.sub_eq_zero_of_le h, List.drop_zero]

theorem add_audio_some (t : WhisperCapRoverTranscriber) (bytes : List Nat)
    (samples : List Rat) (h : bytesToSamples bytes = some samples) :
    add_audio t bytes
      = some { t with
                audio_buffer :=
                  dequeExtend bufferCapacity t.audio_buffer samples
                is_processing := true } := by
  unfold add_audio
  rw [h]

theorem handle_audio_chunk_eq (srv : WhisperCapRoverServer) (sid d : String)
    (bytes : List Nat) (t t1 : WhisperCapRoverTranscriber)
    (hb : b64decode d = some bytes)
    (ht : srv.transcriber = some t)
    (ha : add_audio t bytes = some t1) :
    handle_audio_chunk srv sid d
      = (get_results t1).1.foldl (fun s r => send_transcription s sid r)
          { srv with transcriber := some (get_results t1).2 } := by
  unfold handle_audio_chunk
  rw [hb]
  dsimp only
  rw [ht]
  dsimp only
  rw [ha]

theorem serverDecodeStep_some (srv : WhisperCapRoverServer)
    (engine : List Rat → Except Unit (Option EngineResult)) (pt ts : Rat)
    (t : WhisperCapRoverTranscriber) (ht : srv.transcriber = some t) :
    serverDecodeStep srv engine pt ts
      = { srv with transcriber := some (decodeIteration t engine pt ts) } := by
  unfold serverDecodeStep
  rw [ht]

theorem add_audio_bigChunk :
    add_audio initTranscriber (List.replicate 64002 0)
      = some bigBufTranscriber := by
  rw [add_audio_some initTranscriber _ _ bytesToSamples_bigChunk]
  rw [show initTranscriber.audio_buffer = ([] : List Rat) from rfl]
  rw [dequeExtend_small bufferCapacity _
    (by rw [List.length_replicate]; norm_num [bufferCapacity])]
  rfl

theorem runA_step1 :
    handle_message twoSessionServer "a" (InMsg.audioChunk bigAudioData) 1
      = srvAfterBigChunk := by
  show handle_audio_chunk twoSessionServer "a" bigAudioData = srvAfterBigChunk
  rw [handle_audio_chunk_eq twoSessionServer "a" bigAudioData _
    initTranscriber bigBufTranscriber b64decode_bigAudioData rfl
    add_audio_bigChunk]
  rw [show (get_results bigBufTranscriber).1
      = ([] : List StreamingTranscriptionResult) from rfl]
  rfl

theorem decode_step_silence :
    decodeIteration bigBufTranscriber stubEngine 1 2 = decodedTranscriber := by
  have hbuf : 16000 * 2 ≤ bigBufTranscriber.audio_buffer.length := by
    rw [show bigBufTranscriber.audio_buffer
        = List.replicate 32001 0 from rfl, List.length_replicate]
    norm_num
  have hwin : snapshotLast bigBufTranscriber.audio_buffer (16000 * 2)
      = List.replicate 32000 0 := by
    rw [show bigBufTranscriber.audio_buffer
        = List.replicate 32001 0 from rfl]
    unfold snapshotLast
    rw [List.length_replicate, List.drop_replicate]
  have heng : stubEngine
        (snapshotLast bigBufTranscriber.audio_buffer (16000 * 2))
      = Except.ok (some silenceResult) := by
    rw [hwin]
    exact stubEngine_silence
  have h1 : pyStrip silenceResult.text ≠ "" := by decide
  have h2 : pyStrip silenceResult.text
      ≠ bigBufTranscriber.last_transcription := by decide
  rw [decodeIteration_push bigBufTranscriber stubEngine silenceResult 1 2
    hbuf heng h1 h2]
  rw [show pyStrip silenceResult.text = "silence" from by decide]
  rfl

theorem runA_step2 :
    serverDecodeStep srvAfterBigChunk stubEngine 1 2 = srvAfterDecode := by
  rw [serverDecodeStep_some srvAfterBigChunk stubEngine 1 2 bigBufTranscriber
    rfl]
  rw [decode_step_silence]
  rfl

theorem runWithA_outbox_b :
    sessionOutbox runWithA "b"
      = [transcriptionMessage "b"
          (mkStreamingResult silenceResult "silence" 1 2)] := by
  have hrun : runWithA = handle_audio_chunk srvAfterDecode "b" "AAA=" := by
    unfold runWithA
    rw [runA_step1, runA_step2]
    rfl
  rw [hrun]
  rw [handle_audio_chunk_eq srvAfterDecode "b" "AAA=" [0, 0]
    decodedTranscriber
    { decodedTranscriber with
        audio_buffer := dequeExtend bufferCapacity
          decodedTranscriber.audio_buffer (samplesOfBytes [0, 0])
        is_processing := true }
    (by decide) rfl
    (add_audio_some decodedTranscriber [0, 0] (samplesOfBytes [0, 0]) rfl)]
  rw [show (get_results { decodedTranscriber with
        audio_buffer := dequeExtend bufferCapacity
          decodedTranscriber.audio_buffer (samplesOfBytes [0, 0]),
        is_processing := true }).1
      = [mkStreamingResult silenceResult "silence" 1 2] from rfl]
  rfl

theorem runWithoutA_outbox_b : sessionOutbox runWithoutA "b" = [] := by
  show sessionOutbox (handle_audio_chunk twoSessionServer "b" "AAA=") "b" = []
  rw [handle_audio_chunk_eq twoSessionServer "b" "AAA=" [0, 0]
    initTranscriber
    { initTranscriber with
        audio_buffer := dequeExtend bufferCapacity
          initTranscriber.audio_buffer (samplesOfBytes [0, 0])
        is_processing := true }
    (by decide) rfl
    (add_audio_some initTranscriber [0, 0] (samplesOfBytes [0, 0]) rfl)]
  rw [show (get_results { initTranscriber with
        audio_buffer := dequeExtend bufferCapacity
          initTranscriber.audio_buffer (samplesOfBytes [0, 0]),
        is_processing := true }).1
      = ([] : List StreamingTranscriptionResult) from rfl]
  rfl

/-- C2 counterexample: sessions are not independent.  In two runs from the
same two-session server, session `"b"` sends exactly the same single tiny
chunk; the runs differ only in whether session `"a"` first streamed 4
seconds of silence (after which the decode thread completed one pass of the
input-derived stub engine).  Without `"a"`\'s audio, `"b"` receives no
transcription; with it, `"b"` receives the `"silence"` transcription derived
from `"a"`\'s audio — so the sequence of transcription messages sent to one
session\'s connection depends on the audio sent on the other session\'s
connection, because buffer, result queue and dedup state all live in one
shared transcriber. -/
theorem C2_counterexample :
    sessionOutbox runWithoutA "b" = [] ∧
    sessionOutbox runWithA "b"
      = [transcriptionMessage "b"
          (mkStreamingResult silenceResult "silence" 1 2)] :=
  ⟨runWithoutA_outbox_b, runWithA_outbox_b⟩
